import Mathlib

/-!
Verification development for `boot-splash.c` (PiFinder early-boot splash).

The C program drives a 128x128 SSD1351 OLED over SPI: it initialises the
panel, then loops composing a frame (static background image plus a moving
"Knight Rider" gradient band in the bottom 4 rows) and flushing it.

This file shallowly embeds the program's pure computations and its
command/data traces:

* `scanner_color`, `draw_scanner` — the body of `draw_scanner()`;
* `spi_write` — the chunking loop of `spi_write()`, as the list of
  transfer payloads it issues;
* `PEv`, `ssd1351_cmd`, `ssd1351_data`, `ssd1351_flush`,
  `ssd1351_init_cmds` — the panel-level command/data traces, where
  `PEv.cmd b` stands for "drive DC low, write byte b" and `PEv.dat bs`
  for "drive DC high, write bytes bs";
* `anim_step`, `anim_state` — the animation-state update in `main()`;
* `HwEnv`, `HwState`, `hw_init`, `hw_cleanup`, `main_run` — the process
  lifecycle (fd acquisition, cleanup, exit code, stderr diagnostics);
* `loop_ticks` — the `while (running)` loop, as a function of the flag
  values observed at the top of each iteration.

All machine integers involved stay far from overflow (positions in
[0, 128], intensities in [0, 31], fds), so ℕ/ℤ arithmetic coincides with
the C `int`/`uint16_t` arithmetic at every point used below.
-/

/-- Panel width in pixels (`#define WIDTH 128`). -/
def WIDTH : ℕ := 128

/-- Panel height in pixels (`#define HEIGHT 128`). -/
def HEIGHT : ℕ := 128

/-- BGR565 black (`#define COL_BLACK 0x0000`). -/
def COL_BLACK : ℕ := 0x0000

/-- The scanner width local of `main()` (`int scanner_width = 20;`),
passed unchanged to every `draw_scanner` call. -/
def scanner_width : ℕ := 20

/-- Per-column colour computed by the band loop of `draw_scanner(pos, w)`:
`dist = abs(x - center)`; if `dist < w` the red intensity is
`31 - dist*31/w`, clamped below at 8 and masked to the low 5 bits
(`(uint16_t)intensity & 0x1F`); otherwise the pixel is `COL_BLACK`.
Under the branch guard `dist < w` we have `dist*31/w ≤ 30`, so the C
`int` subtraction is non-negative and agrees with the ℕ subtraction. -/
def scanner_color (w : ℕ) (pos x : ℤ) : ℕ :=
  if (x - pos).natAbs < w then
    (if 31 - (x - pos).natAbs * 31 / w < 8 then 8
     else 31 - (x - pos).natAbs * 31 / w) &&& 0x1F
  else COL_BLACK

/-- Frame-buffer contents after the body of `draw_scanner(pos, w)` (the
`memcpy` of the background followed by the band overwrite of rows
`HEIGHT-4 .. HEIGHT-1`), as a function of the flat pixel index
`i = y*WIDTH + x`; the C double loop stores `scanner_color` at exactly
the indices whose row `i / WIDTH` is at least `HEIGHT - 4`, and the
colour depends only on the column `i % WIDTH`. -/
def draw_scanner (bg : ℕ → ℕ) (pos : ℤ) (w : ℕ) (i : ℕ) : ℕ :=
  if HEIGHT - 4 ≤ i / WIDTH then scanner_color w pos ((i % WIDTH : ℕ) : ℤ)
  else bg i

lemma scanner_color_of_lt (pos x : ℤ) (h : (x - pos).natAbs < 20) :
    scanner_color 20 pos x = max 8 (31 - (x - pos).natAbs * 31 / 20) ∧
    scanner_color 20 pos x < 32 := by
  have key : ∀ d : ℕ, d < 20 →
      ((if 31 - d * 31 / 20 < 8 then 8 else 31 - d * 31 / 20) &&& 0x1F
          = max 8 (31 - d * 31 / 20) ∧
        (if 31 - d * 31 / 20 < 8 then 8 else 31 - d * 31 / 20) &&& 0x1F
          < 32) := by decide
  have hk := key ((x - pos).natAbs) h
  unfold scanner_color
  rw [if_pos h]
  exact hk

lemma scanner_color_of_ge (pos x : ℤ) (h : 20 ≤ (x - pos).natAbs) :
    scanner_color 20 pos x = 0 := by
  unfold scanner_color COL_BLACK
  rw [if_neg (by omega)]

/-- C1: for every `bar_center` in [10, 118] and `bar_half_width = 20`, the
composed frame's rows 0..123 equal the background exactly, and in rows
124..127 the pixel at column x is black when `|x - bar_center| ≥ 20` and
otherwise equals `max 8 (31 - |x - bar_center|*31/20)`, a value below 32,
i.e. a red intensity in the low 5 bits with all higher bits zero. -/
theorem c1_compose_rows (bg : ℕ → ℕ) (pos : ℤ) (x y : ℕ)
    (hpos1 : 10 ≤ pos) (hpos2 : pos ≤ 118) (hx : x < 128) (hy : y < 128) :
    (y ≤ 123 → draw_scanner bg pos 20 (y * 128 + x) = bg (y * 128 + x)) ∧
    (124 ≤ y →
      (20 ≤ ((x : ℤ) - pos).natAbs →
        draw_scanner bg pos 20 (y * 128 + x) = 0) ∧
      (((x : ℤ) - pos).natAbs < 20 →
        draw_scanner bg pos 20 (y * 128 + x)
            = max 8 (31 - ((x : ℤ) - pos).natAbs * 31 / 20) ∧
        draw_scanner bg pos 20 (y * 128 + x) < 32)) := by
  have hq : (y * 128 + x) / 128 = y := by omega
  have hr : (y * 128 + x) % 128 = x := by omega
  unfold draw_scanner WIDTH HEIGHT
  rw [hq, hr]
  constructor
  · intro h123
    rw [if_neg (by omega)]
  · intro h124
    rw [if_pos (by omega)]
    exact ⟨scanner_color_of_ge pos x, scanner_color_of_lt pos x⟩

/-- Witness for C1 at `bar_center = 64`, evaluated at a background pixel
(row 10) and at band pixels (row 125) both inside and outside the band. -/
theorem c1_compose_rows_witness :
    (draw_scanner (fun _ => 7) 64 20 (10 * 128 + 60) = 7) ∧
    (draw_scanner (fun _ => 7) 64 20 (125 * 128 + 20) = 0) ∧
    (draw_scanner (fun _ => 7) 64 20 (125 * 128 + 60)
        = max 8 (31 - ((60 : ℤ) - 64).natAbs * 31 / 20)) := by
  refine ⟨?_, ?_, ?_⟩
  · exact (c1_compose_rows (fun _ => 7) 64 60 10 (by decide) (by decide)
      (by decide) (by decide)).1 (by decide)
  · exact ((c1_compose_rows (fun _ => 7) 64 20 125 (by decide) (by decide)
      (by decide) (by decide)).2 (by decide)).1 (by decide)
  · exact (((c1_compose_rows (fun _ => 7) 64 60 125 (by decide) (by decide)
      (by decide) (by decide)).2 (by decide)).2 (by decide)).1

/-- The chunking loop of `spi_write(data, len)`: while bytes remain, issue
one transfer of `min len 4096` bytes and advance.  The result is the list
of transfer payloads, in issue order. -/
def spi_write : List ℕ → List (List ℕ)
  | [] => []
  | b :: rest => ((b :: rest).take 4096) :: spi_write ((b :: rest).drop 4096)
termination_by l => l.length
decreasing_by
  simp only [List.length_drop, List.length_cons]
  omega

lemma getLast?_cons_of_ne_nil {α : Type} (a : α) {l : List α} (h : l ≠ []) :
    (a :: l).getLast? = l.getLast? := by
  cases l with
  | nil => exact absurd rfl h
  | cons x xs => exact List.getLast?_cons_cons

lemma spi_write_flatten_aux (n : ℕ) :
    ∀ l : List ℕ, l.length ≤ n → (spi_write l).flatten = l := by
  induction n with
  | zero =>
    intro l hl
    have : l = [] := List.eq_nil_of_length_eq_zero (by omega)
    subst this
    rw [spi_write]
    simp
  | succ n ih =>
    intro l hl
    cases l with
    | nil =>
      rw [spi_write]
      simp
    | cons b rest =>
      rw [spi_write, List.flatten_cons,
        ih _ (by simp only [List.length_drop, List.length_cons] at hl ⊢; omega)]
      exact List.take_append_drop 4096 (b :: rest)

lemma spi_write_length_aux (n : ℕ) :
    ∀ l : List ℕ, l.length ≤ n →
      (spi_write l).length = (l.length + 4095) / 4096 := by
  induction n with
  | zero =>
    intro l hl
    have : l = [] := List.eq_nil_of_length_eq_zero (by omega)
    subst this
    rw [spi_write]
    simp
  | succ n ih =>
    intro l hl
    cases l with
    | nil =>
      rw [spi_write]
      simp
    | cons b rest =>
      rw [spi_write, List.length_cons,
        ih _ (by simp only [List.length_drop, List.length_cons] at hl ⊢; omega)]
      simp only [List.length_drop, List.length_cons]
      omega

lemma spi_write_mem_aux (n : ℕ) :
    ∀ l : List ℕ, l.length ≤ n →
      ∀ c ∈ spi_write l, c.length ≤ 4096 := by
  induction n with
  | zero =>
    intro l hl c hc
    have : l = [] := List.eq_nil_of_length_eq_zero (by omega)
    subst this
    rw [spi_write] at hc
    exact absurd hc (List.not_mem_nil c)
  | succ n ih =>
    intro l hl c hc
    cases l with
    | nil =>
      rw [spi_write] at hc
      exact absurd hc (List.not_mem_nil c)
    | cons b rest =>
      rw [spi_write] at hc
      rcases List.mem_cons.mp hc with h | h
      · subst h
        exact List.length_take_le 4096 (b :: rest)
      · exact ih _
          (by simp only [List.length_drop, List.length_cons] at hl ⊢; omega) c h

lemma spi_write_ne_nil (b : ℕ) (rest : List ℕ) :
    spi_write (b :: rest) ≠ [] := by
  rw [spi_write]
  exact List.cons_ne_nil _ _

lemma spi_write_last_aux (n : ℕ) :
    ∀ l : List ℕ, l.length ≤ n → l ≠ [] →
      ∃ c, (spi_write l).getLast? = some c ∧
        c.length = if l.length % 4096 = 0 then 4096 else l.length % 4096 := by
  induction n with
  | zero =>
    intro l hl hne
    exact absurd (List.eq_nil_of_length_eq_zero (by omega)) hne
  | succ n ih =>
    intro l hl hne
    cases l with
    | nil => exact absurd rfl hne
    | cons b rest =>
      by_cases hlen : (b :: rest).length ≤ 4096
      · have hdrop : (b :: rest).drop 4096 = [] := List.drop_eq_nil_of_le hlen
        have htake : (b :: rest).take 4096 = b :: rest :=
          List.take_of_length_le hlen
        refine ⟨b :: rest, ?_, ?_⟩
        · rw [spi_write, hdrop, spi_write, htake]
          rfl
        · have h1 : 1 ≤ (b :: rest).length := by simp
          split_ifs with h0 <;> omega
      · have hdrop_len : ((b :: rest).drop 4096).length
            = (b :: rest).length - 4096 := List.length_drop 4096 (b :: rest)
        have hdne : (b :: rest).drop 4096 ≠ [] := by
          intro h
          rw [h] at hdrop_len
          simp only [List.length_nil] at hdrop_len
          omega
        obtain ⟨c, hc1, hc2⟩ := ih ((b :: rest).drop 4096)
          (by simp only [List.length_drop, List.length_cons] at hl ⊢; omega) hdne
        have hsne : spi_write ((b :: rest).drop 4096) ≠ [] := by
          rcases List.exists_cons_of_ne_nil hdne with ⟨x, xs, hdd⟩
          rw [hdd]
          exact spi_write_ne_nil x xs
        refine ⟨c, ?_, ?_⟩
        · rw [spi_write, getLast?_cons_of_ne_nil _ hsne, hc1]
        · rw [hc2, hdrop_len]
          have h1 : 4096 < (b :: rest).length := by omega
          split_ifs with h2 h3 h3 <;> omega

/-- C3: `spi_write` on a payload of length L issues exactly ⌈L/4096⌉
transfers, each of at most 4096 bytes, whose concatenation in issue order
is the input; when L > 0 the final transfer has length `L % 4096`, or
4096 when L is an exact multiple of 4096. -/
theorem c3_spi_write_chunks (l : List ℕ) :
    (spi_write l).length = (l.length + 4095) / 4096 ∧
    (∀ c ∈ spi_write l, c.length ≤ 4096) ∧
    (spi_write l).flatten = l ∧
    (l ≠ [] → ∃ c, (spi_write l).getLast? = some c ∧
      c.length = if l.length % 4096 = 0 then 4096 else l.length % 4096) :=
  ⟨spi_write_length_aux l.length l le_rfl,
   spi_write_mem_aux l.length l le_rfl,
   spi_write_flatten_aux l.length l le_rfl,
   spi_write_last_aux l.length l le_rfl⟩

/-- Witness for C3 at the concrete payload [0, 1, 2]. -/
theorem c3_spi_write_chunks_witness :
    (spi_write [0, 1, 2]).length = (([0, 1, 2] : List ℕ).length + 4095) / 4096 ∧
    (∀ c ∈ spi_write [0, 1, 2], c.length ≤ 4096) ∧
    (spi_write [0, 1, 2]).flatten = [0, 1, 2] ∧
    (∃ c, (spi_write [0, 1, 2]).getLast? = some c ∧
      c.length = if ([0, 1, 2] : List ℕ).length % 4096 = 0 then 4096
        else ([0, 1, 2] : List ℕ).length % 4096) :=
  ⟨(c3_spi_write_chunks [0, 1, 2]).1,
   (c3_spi_write_chunks [0, 1, 2]).2.1,
   (c3_spi_write_chunks [0, 1, 2]).2.2.1,
   (c3_spi_write_chunks [0, 1, 2]).2.2.2 (by decide)⟩

/-- Panel-level event: `cmd b` models `ssd1351_cmd(b)` (drive DC low, then
write one byte over SPI); `dat bs` models `ssd1351_data(bs, len)` (drive DC
high, then write `bs` over SPI). -/
inductive PEv where
  | cmd (b : ℕ)
  | dat (bs : List ℕ)
deriving DecidableEq

/-- Trace of `ssd1351_cmd(b)`. -/
def ssd1351_cmd (b : ℕ) : List PEv := [PEv.cmd b]

/-- Trace of `ssd1351_data(bs, len)`. -/
def ssd1351_data (bs : List ℕ) : List PEv := [PEv.dat bs]

/-- The byte stream built by the conversion loop of `ssd1351_flush`:
`buf[i*2] = framebuf[i] >> 8; buf[i*2+1] = framebuf[i] & 0xFF;`. -/
def flush_bytes (framebuf : List ℕ) : List ℕ :=
  framebuf.flatMap fun p => [p >>> 8, p &&& 0xFF]

/-- Trace of `ssd1351_flush()`: column window, row window, write-RAM, then
the whole frame buffer as big-endian byte pairs in one data call. -/
def ssd1351_flush (framebuf : List ℕ) : List PEv :=
  ssd1351_cmd 0x15 ++ ssd1351_data [0x00, 0x7F] ++
  ssd1351_cmd 0x75 ++ ssd1351_data [0x00, 0x7F] ++
  ssd1351_cmd 0x5C ++
  ssd1351_data (flush_bytes framebuf)

lemma flush_bytes_length (framebuf : List ℕ) :
    (flush_bytes framebuf).length = 2 * framebuf.length := by
  induction framebuf with
  | nil => rfl
  | cons p rest ih =>
    simp only [flush_bytes, List.flatMap_cons] at ih ⊢
    simp [ih]
    omega

lemma flush_bytes_get (framebuf : List ℕ) :
    ∀ (i : ℕ) (p : ℕ), framebuf[i]? = some p →
      (flush_bytes framebuf)[2 * i]? = some (p >>> 8) ∧
      (flush_bytes framebuf)[2 * i + 1]? = some (p &&& 0xFF) := by
  induction framebuf with
  | nil => intro i p h; simp at h
  | cons q rest ih =>
    intro i p h
    cases i with
    | zero =>
      simp only [List.getElem?_cons_zero, Option.some.injEq] at h
      subst h
      constructor <;> simp [flush_bytes]
    | succ i =>
      simp only [List.getElem?_cons_succ] at h
      have hrec := ih i p h
      have h2 : 2 * (i + 1) = (2 * i) + 1 + 1 := by omega
      rw [h2]
      simp only [flush_bytes, List.flatMap_cons, List.cons_append,
        List.getElem?_cons_succ, List.nil_append] at hrec ⊢
      exact hrec

/-- C2: for every frame buffer of the program's fixed size 16384, a flush
is exactly one column-window command with parameters 0 and 0x7F, one
row-window command with parameters 0 and 0x7F, one write-RAM command, and
then one data stream of exactly 32768 bytes in which the high byte
(`framebuf[i] >> 8`) of each pixel sits at offset 2i and its low byte
(`framebuf[i] & 0xFF`) at offset 2i+1, pixels in buffer order. -/
theorem c2_flush_trace (framebuf : List ℕ) (h : framebuf.length = 16384) :
    ssd1351_flush framebuf
      = [PEv.cmd 0x15, PEv.dat [0x00, 0x7F], PEv.cmd 0x75,
         PEv.dat [0x00, 0x7F], PEv.cmd 0x5C,
         PEv.dat (flush_bytes framebuf)] ∧
    (flush_bytes framebuf).length = 32768 ∧
    (∀ i, i < 16384 → ∃ p, framebuf[i]? = some p ∧
      (flush_bytes framebuf)[2 * i]? = some (p >>> 8) ∧
      (flush_bytes framebuf)[2 * i + 1]? = some (p &&& 0xFF)) := by
  refine ⟨rfl, ?_, ?_⟩
  · rw [flush_bytes_length, h]
  · intro i hi
    have hlt : i < framebuf.length := by omega
    exact ⟨framebuf[i], List.getElem?_eq_getElem hlt,
      flush_bytes_get framebuf i framebuf[i] (List.getElem?_eq_getElem hlt)⟩

/-- Witness for C2 at the all-zero frame buffer. -/
theorem c2_flush_trace_witness :
    ssd1351_flush (List.replicate 16384 0)
      = [PEv.cmd 0x15, PEv.dat [0x00, 0x7F], PEv.cmd 0x75,
         PEv.dat [0x00, 0x7F], PEv.cmd 0x5C,
         PEv.dat (flush_bytes (List.replicate 16384 0))] ∧
    (flush_bytes (List.replicate 16384 0)).length = 32768 ∧
    (∀ i, i < 16384 → ∃ p, (List.replicate 16384 (0 : ℕ))[i]? = some p ∧
      (flush_bytes (List.replicate 16384 0))[2 * i]? = some (p >>> 8) ∧
      (flush_bytes (List.replicate 16384 0))[2 * i + 1]? = some (p &&& 0xFF)) :=
  c2_flush_trace (List.replicate 16384 0) (List.length_replicate 16384 0)

/-- Trace of the command/parameter writes of `ssd1351_init()` after the
hardware reset (RST high/low/high with 10 ms holds), exactly in source
order: unlock, unlock commands, display off, clock divider, mux ratio,
column address, row address, remap (BGR, 65k colour), start line, display
offset, GPIO, function select, precharge, VSL, VCOMH, master contrast,
precharge2, normal display, per-channel contrast. -/
def ssd1351_init_cmds : List PEv :=
  ssd1351_cmd 0xFD ++ ssd1351_data [0x12] ++
  ssd1351_cmd 0xFD ++ ssd1351_data [0xB1] ++
  ssd1351_cmd 0xAE ++
  ssd1351_cmd 0xB3 ++ ssd1351_data [0xF1] ++
  ssd1351_cmd 0xCA ++ ssd1351_data [0x7F] ++
  ssd1351_cmd 0x15 ++ ssd1351_data [0x00, 0x7F] ++
  ssd1351_cmd 0x75 ++ ssd1351_data [0x00, 0x7F] ++
  ssd1351_cmd 0xA0 ++ ssd1351_data [0x74] ++
  ssd1351_cmd 0xA1 ++ ssd1351_data [0x00] ++
  ssd1351_cmd 0xA2 ++ ssd1351_data [0x00] ++
  ssd1351_cmd 0xB5 ++ ssd1351_data [0x00] ++
  ssd1351_cmd 0xAB ++ ssd1351_data [0x01] ++
  ssd1351_cmd 0xB1 ++ ssd1351_data [0x32] ++
  ssd1351_cmd 0xB4 ++ ssd1351_data [0xA0, 0xB5, 0x55] ++
  ssd1351_cmd 0xBE ++ ssd1351_data [0x05] ++
  ssd1351_cmd 0xC7 ++ ssd1351_data [0x0F] ++
  ssd1351_cmd 0xB6 ++ ssd1351_data [0x01] ++
  ssd1351_cmd 0xA6 ++
  ssd1351_cmd 0xC1 ++ ssd1351_data [0xFF, 0xFF, 0xFF]

/-- Command bytes of a panel trace, data payloads dropped. -/
def cmd_bytes (l : List PEv) : List ℕ :=
  l.filterMap fun e =>
    match e with
    | PEv.cmd b => some b
    | PEv.dat _ => none

/-- The command order claim C5 asserts for `ssd1351_init`, transcribed
from the spec's words: two vendor unlocks (0xFD), clock divider (0xB3),
mux ratio (0xCA), column window (0x15), row window (0x75), colour
depth/order (0xA0), start line (0xA1), display offset (0xA2), GPIO mode
(0xB5), function select (0xAB), pre-charge timing with both stages
consecutive (0xB1 then 0xB6), segment low voltage (0xB4), VCOMH (0xBE),
master contrast (0xC7), normal display mode (0xA6), per-channel contrast
(0xC1) — and nothing else. -/
def spec_init_cmd_order : List ℕ :=
  [0xFD, 0xFD, 0xB3, 0xCA, 0x15, 0x75, 0xA0, 0xA1, 0xA2, 0xB5, 0xAB,
   0xB1, 0xB6, 0xB4, 0xBE, 0xC7, 0xA6, 0xC1]

/-- C5 counterexample: the init sequence the code actually emits is not
the one the claim lists: the third command is 0xAE (display off), which
the claimed "and nothing else" sequence does not contain at all, and the
two pre-charge stages (0xB1, 0xB6) are not consecutive in the code. -/
theorem c5_counterexample :
    cmd_bytes ssd1351_init_cmds ≠ spec_init_cmd_order ∧
    (cmd_bytes ssd1351_init_cmds)[2]? = some 0xAE ∧
    0xAE ∉ spec_init_cmd_order ∧
    (cmd_bytes ssd1351_init_cmds)[12]? = some 0xB1 ∧
    (cmd_bytes ssd1351_init_cmds)[13]? = some 0xB4 ∧
    (cmd_bytes ssd1351_init_cmds)[16]? = some 0xB6 := by
  decide

/-- C5 amended: after the hardware reset, `ssd1351_init` emits exactly,
and in this order: two vendor-unlock commands, display off, clock
divider, mux ratio, column window 0-0x7F, row window 0-0x7F, colour
depth/order, start line, display offset, GPIO mode, function select,
pre-charge stage 1, segment low voltage, VCOMH, master contrast,
pre-charge stage 2, normal display mode, per-channel contrast — and the
sequence contains no display-on command (0xAF). -/
theorem c5_init_sequence :
    ssd1351_init_cmds
      = [PEv.cmd 0xFD, PEv.dat [0x12], PEv.cmd 0xFD, PEv.dat [0xB1],
         PEv.cmd 0xAE,
         PEv.cmd 0xB3, PEv.dat [0xF1], PEv.cmd 0xCA, PEv.dat [0x7F],
         PEv.cmd 0x15, PEv.dat [0x00, 0x7F],
         PEv.cmd 0x75, PEv.dat [0x00, 0x7F],
         PEv.cmd 0xA0, PEv.dat [0x74], PEv.cmd 0xA1, PEv.dat [0x00],
         PEv.cmd 0xA2, PEv.dat [0x00], PEv.cmd 0xB5, PEv.dat [0x00],
         PEv.cmd 0xAB, PEv.dat [0x01], PEv.cmd 0xB1, PEv.dat [0x32],
         PEv.cmd 0xB4, PEv.dat [0xA0, 0xB5, 0x55],
         PEv.cmd 0xBE, PEv.dat [0x05], PEv.cmd 0xC7, PEv.dat [0x0F],
         PEv.cmd 0xB6, PEv.dat [0x01], PEv.cmd 0xA6,
         PEv.cmd 0xC1, PEv.dat [0xFF, 0xFF, 0xFF]] ∧
    cmd_bytes ssd1351_init_cmds
      = [0xFD, 0xFD, 0xAE, 0xB3, 0xCA, 0x15, 0x75, 0xA0, 0xA1, 0xA2,
         0xB5, 0xAB, 0xB1, 0xB4, 0xBE, 0xC7, 0xB6, 0xA6, 0xC1] ∧
    PEv.cmd 0xAF ∉ ssd1351_init_cmds := by
  refine ⟨rfl, rfl, ?_⟩
  decide

/-- One tick's position update in `main()`:
`pos += dir * 4;` then clamp-and-bounce at
`WIDTH - scanner_width/2 = 118` (direction flips to -1) and at
`scanner_width/2 = 10` (direction flips to +1).  The pair is
(position, direction). -/
def anim_step (s : ℤ × ℤ) : ℤ × ℤ :=
  let pos := s.1 + s.2 * 4
  if (WIDTH : ℤ) - (scanner_width : ℤ) / 2 ≤ pos then
    ((WIDTH : ℤ) - (scanner_width : ℤ) / 2, -1)
  else if pos ≤ (scanner_width : ℤ) / 2 then ((scanner_width : ℤ) / 2, 1)
  else (pos, s.2)

/-- Animation state before tick n's update: `main()` starts at
`pos = 0, dir = 1` and applies `anim_step` once per tick, after drawing.
The frame of tick n is therefore composed at position `(anim_state n).1`. -/
def anim_state : ℕ → ℤ × ℤ
  | 0 => (0, 1)
  | n + 1 => anim_step (anim_state n)

/-- Reachability invariant of the animation state: moving right the
position is 0 (start only) or in [10, 114] and congruent to 2 mod 4;
moving left it is in [14, 118] and congruent to 2 mod 4. -/
def AnimInv (s : ℤ × ℤ) : Prop :=
  (s.2 = 1 ∧ (s.1 = 0 ∨ (10 ≤ s.1 ∧ s.1 ≤ 114 ∧ s.1 % 4 = 2))) ∨
  (s.2 = -1 ∧ 14 ≤ s.1 ∧ s.1 ≤ 118 ∧ s.1 % 4 = 2)

lemma anim_step_inv (s : ℤ × ℤ) (h : AnimInv s) : AnimInv (anim_step s) := by
  obtain ⟨p, d⟩ := s
  simp only [AnimInv, anim_step, WIDTH, scanner_width] at h ⊢
  norm_num at h ⊢
  split_ifs <;> simp_all <;> omega

lemma anim_inv (n : ℕ) : AnimInv (anim_state n) := by
  induction n with
  | zero => exact Or.inl ⟨rfl, Or.inl rfl⟩
  | succ n ih => exact anim_step_inv _ ih

lemma anim_step_lb (s : ℤ × ℤ) : 10 ≤ (anim_step s).1 := by
  obtain ⟨p, d⟩ := s
  simp only [anim_step, WIDTH, scanner_width]
  norm_num
  split_ifs <;> omega

lemma anim_step_eq (p d : ℤ) :
    anim_step (p, d)
      = if 118 ≤ p + d * 4 then ((118 : ℤ), (-1 : ℤ))
        else if p + d * 4 ≤ 10 then (10, 1) else (p + d * 4, d) := by
  simp only [anim_step, WIDTH, scanner_width]
  norm_num

/-- C4: the emitted bar-center sequence starts at 0 with direction +1;
every emitted position is at most 118 and, from the first update on, at
least 10; while the direction is +1 the sequence strictly increases, and
a raw step reaching at least 118 is clamped to 118 with the direction
flipped to -1; while the direction is -1 it strictly decreases, and a raw
step reaching at most 10 is clamped to 10 with the direction flipped
to +1; away from the bounds the step is exactly ±4. -/
theorem c4_anim_triangle (n : ℕ) :
    ((anim_state n).2 = 1 ∨ (anim_state n).2 = -1) ∧
    0 ≤ (anim_state n).1 ∧ (anim_state n).1 ≤ 118 ∧
    (1 ≤ n → 10 ≤ (anim_state n).1) ∧
    ((anim_state n).2 = 1 → (anim_state n).1 < (anim_state (n + 1)).1) ∧
    ((anim_state n).2 = -1 → (anim_state (n + 1)).1 < (anim_state n).1) ∧
    ((anim_state n).2 = 1 → 118 ≤ (anim_state n).1 + 4 →
      anim_state (n + 1) = (118, -1)) ∧
    ((anim_state n).2 = 1 → 10 < (anim_state n).1 →
      (anim_state n).1 + 4 < 118 →
      anim_state (n + 1) = ((anim_state n).1 + 4, 1)) ∧
    ((anim_state n).2 = -1 → (anim_state n).1 - 4 ≤ 10 →
      anim_state (n + 1) = (10, 1)) ∧
    ((anim_state n).2 = -1 → 10 < (anim_state n).1 - 4 →
      anim_state (n + 1) = ((anim_state n).1 - 4, -1)) := by
  have hI := anim_inv n
  have hstep : anim_state (n + 1) = anim_step (anim_state n) := rfl
  have hlb : 1 ≤ n → 10 ≤ (anim_state n).1 := by
    intro hn
    obtain ⟨m, rfl⟩ : ∃ m, n = m + 1 := ⟨n - 1, by omega⟩
    exact anim_step_lb (anim_state m)
  rcases hs : anim_state n with ⟨p, d⟩
  rw [hs] at hI hstep hlb
  simp only [AnimInv] at hI
  simp only [hstep, anim_step_eq]
  dsimp only at hI hlb ⊢
  refine ⟨?_, ?_, ?_, hlb, ?_, ?_, ?_, ?_, ?_, ?_⟩
  · rcases hI with ⟨h1, _⟩ | ⟨h1, _⟩
    · exact Or.inl h1
    · exact Or.inr h1
  · rcases hI with ⟨_, h2⟩ | ⟨_, h2, _⟩ <;> omega
  · rcases hI with ⟨_, h2⟩ | ⟨_, h2, h3, _⟩ <;> omega
  · intro hd
    subst hd
    rcases hI with ⟨_, h2⟩ | ⟨h1, _⟩
    · split_ifs <;> simp <;> omega
    · omega
  · intro hd
    subst hd
    rcases hI with ⟨h1, _⟩ | ⟨_, h2, h3, h4⟩
    · omega
    · split_ifs <;> simp <;> omega
  · intro hd h4
    subst hd
    rw [if_pos (by omega)]
  · intro hd h4 h5
    subst hd
    rw [if_neg (by omega), if_neg (by omega)]
    norm_num
  · intro hd h4
    subst hd
    rcases hI with ⟨h1, _⟩ | ⟨_, h2, h3, _⟩
    · omega
    · rw [if_neg (by omega), if_pos (by omega)]
  · intro hd h4
    subst hd
    rw [if_neg (by omega), if_neg (by omega)]
    have hcalc : p + -1 * 4 = p - 4 := by ring
    rw [hcalc]

/-- Witness for C4 at tick 2 (state (14, 1)): the lower bound from the
first update on, strict increase, and the exact +4 step. -/
theorem c4_anim_triangle_witness :
    10 ≤ (anim_state 2).1 ∧
    (anim_state 2).1 < (anim_state 3).1 ∧
    anim_state 3 = ((anim_state 2).1 + 4, 1) := by
  refine ⟨?_, ?_, ?_⟩
  · exact (c4_anim_triangle 2).2.2.2.1 (by decide)
  · exact (c4_anim_triangle 2).2.2.2.2.1 (by decide)
  · exact (c4_anim_triangle 2).2.2.2.2.2.2.2.1 (by decide) (by decide)
      (by decide)

/-- C7 counterexample: the first composed frame is drawn at the initial
state, whose bar-center position is 0 — not in the claimed range
[10, 118].  (`main()` calls `draw_scanner(pos, ...)` before the first
position update.) -/
theorem c7_counterexample :
    (anim_state 0).1 = 0 ∧ ¬ 10 ≤ (anim_state 0).1 := by
  decide

/-- C7 amended: at every tick the direction is 1 or -1 and the bar-center
position is an integer in [0, 118]; from every tick after the first
(i.e. once the position has been updated at least once) the position lies
in [10, 118].  The first composed frame uses position 0, below the
claimed lower bound 10. -/
theorem c7_anim_bounds (n : ℕ) :
    ((anim_state n).2 = 1 ∨ (anim_state n).2 = -1) ∧
    0 ≤ (anim_state n).1 ∧ (anim_state n).1 ≤ 118 ∧
    (n ≠ 0 → 10 ≤ (anim_state n).1 ∧ (anim_state n).1 ≤ 118) := by
  have hI := anim_inv n
  have hub : (anim_state n).1 ≤ 118 := by
    rcases hI with ⟨_, h⟩ | ⟨_, _, h, _⟩ <;> omega
  refine ⟨?_, ?_, hub, ?_⟩
  · rcases hI with ⟨h, _⟩ | ⟨h, _⟩
    · exact Or.inl h
    · exact Or.inr h
  · rcases hI with ⟨_, h⟩ | ⟨_, h, _⟩ <;> omega
  · intro hn
    obtain ⟨m, rfl⟩ : ∃ m, n = m + 1 := ⟨n - 1, by omega⟩
    exact ⟨anim_step_lb (anim_state m), hub⟩

/-- Witness for C7 (amended) at tick 1, where the position is 10. -/
theorem c7_anim_bounds_witness :
    10 ≤ (anim_state 1).1 ∧ (anim_state 1).1 ≤ 118 :=
  (c7_anim_bounds 1).2.2.2 (by decide)

/-- Environment of one run of `hw_init`: the return values of the two
`open()` calls (negative means failure, as in C) and, for each of the two
`GPIO_V2_GET_LINE_IOCTL` calls, whether the ioctl succeeds and the line
fd the kernel stores in the request structure on success (always positive
in practice, since fds 0-2 are the standard streams). -/
structure HwEnv where
  spiRet : ℤ
  gpioRet : ℤ
  dcOk : Bool
  dcFd : ℤ
  rstOk : Bool
  rstFd : ℤ

/-- The four descriptor globals of the program: `spi_fd`, `gpio_fd`, and
the `fd` fields of the static `dc_req` and `rst_req` request structs. -/
structure HwState where
  spi_fd : ℤ
  gpio_fd : ℤ
  dc_fd : ℤ
  rst_fd : ℤ
deriving DecidableEq

/-- Descriptor globals before `hw_init`: `spi_fd` and `gpio_fd` are
initialised to -1; the static request structs are zero-initialised, so
their `fd` fields are 0. -/
def init_state : HwState := ⟨-1, -1, 0, 0⟩

/-- `hw_init()`: open SPI (fail → perror "open spi", return -1), configure
it, open the GPIO chip (fail → perror "open gpiochip0", return -1),
request the DC and RST lines (each failure → perror
"GPIO_V2_GET_LINE_IOCTL", return -1; on success the request struct, with
the kernel-filled fd, is copied into the global), then run the panel init.
Returns the resulting globals, the C return value, and the stderr
diagnostics in emission order. -/
def hw_init (env : HwEnv) : HwState × ℤ × List String :=
  let s1 : HwState := { init_state with spi_fd := env.spiRet }
  if env.spiRet < 0 then (s1, -1, ["open spi"])
  else
    let s2 : HwState := { s1 with gpio_fd := env.gpioRet }
    if env.gpioRet < 0 then (s2, -1, ["open gpiochip0"])
    else if env.dcOk = false then (s2, -1, ["GPIO_V2_GET_LINE_IOCTL"])
    else
      let s3 : HwState := { s2 with dc_fd := env.dcFd }
      if env.rstOk = false then (s3, -1, ["GPIO_V2_GET_LINE_IOCTL"])
      else ({ s3 with rst_fd := env.rstFd }, 0, [])

/-- `hw_cleanup()`: closes `dc_req.fd` and `rst_req.fd` when positive and
`gpio_fd` and `spi_fd` when non-negative, in that order.  It does not
modify the globals (the C function only calls `close`), so the returned
state equals the input state; the second component lists the descriptors
passed to `close`, in call order. -/
def hw_cleanup (s : HwState) : HwState × List ℤ :=
  (s, (if 0 < s.dc_fd then [s.dc_fd] else []) ++
      (if 0 < s.rst_fd then [s.rst_fd] else []) ++
      (if 0 ≤ s.gpio_fd then [s.gpio_fd] else []) ++
      (if 0 ≤ s.spi_fd then [s.spi_fd] else []))

/-- `main()`'s lifecycle: install signal handlers, run `hw_init`; on
failure print "Hardware init failed" to stderr, run `hw_cleanup`, exit 1;
on success run the animation loop until the running flag clears (the loop
affects neither the exit code, the close calls, nor stderr, so it is
elided here; see `loop_ticks`), then run `hw_cleanup` and exit 0.
Returns (exit code, descriptors closed, stderr lines). -/
def main_run (env : HwEnv) : ℤ × List ℤ × List String :=
  let r := hw_init env
  if r.2.1 < 0 then (1, (hw_cleanup r.1).2, r.2.2 ++ ["Hardware init failed"])
  else (0, (hw_cleanup r.1).2, r.2.2)

/-- C6: whenever `hw_init` fails — for any of its four failure modes:
SPI open, GPIO-chip open, DC line request, RST line request — the process
exits with status 1; in the SPI-open case specifically it writes
diagnostics to stderr and cleanup closes nothing (no handle was acquired,
and the sentinel values -1, -1, 0, 0 all fail their guards); on a clean
signal-initiated shutdown after a fully successful init, the process
exits with status 0. -/
theorem c6_exit_codes (env : HwEnv) :
    ((hw_init env).2.1 < 0 → (main_run env).1 = 1) ∧
    (env.spiRet < 0 →
      main_run env = (1, [], ["open spi", "Hardware init failed"])) ∧
    (0 ≤ env.spiRet → env.gpioRet < 0 → (main_run env).1 = 1) ∧
    (0 ≤ env.spiRet → 0 ≤ env.gpioRet → env.dcOk = false →
      (main_run env).1 = 1) ∧
    (0 ≤ env.spiRet → 0 ≤ env.gpioRet → env.dcOk = true →
      env.rstOk = false → (main_run env).1 = 1) ∧
    (0 ≤ env.spiRet → 0 ≤ env.gpioRet → env.dcOk = true → env.rstOk = true →
      (main_run env).1 = 0) := by
  refine ⟨?_, ?_, ?_, ?_, ?_, ?_⟩
  · intro h
    simp only [main_run]
    rw [if_pos h]
  · intro h
    have h2 : ¬ 0 ≤ env.spiRet := by omega
    simp [main_run, hw_init, hw_cleanup, init_state, h, h2]
  · intro h1 h2
    have h1n : ¬ env.spiRet < 0 := by omega
    simp [main_run, hw_init, h1n, h2]
  · intro h1 h2 h3
    have h1n : ¬ env.spiRet < 0 := by omega
    have h2n : ¬ env.gpioRet < 0 := by omega
    simp [main_run, hw_init, h1n, h2n, h3]
  · intro h1 h2 h3 h4
    have h1n : ¬ env.spiRet < 0 := by omega
    have h2n : ¬ env.gpioRet < 0 := by omega
    simp [main_run, hw_init, h1n, h2n, h3, h4]
  · intro h1 h2 h3 h4
    have h1n : ¬ env.spiRet < 0 := by omega
    have h2n : ¬ env.gpioRet < 0 := by omega
    simp [main_run, hw_init, h1n, h2n, h3, h4]

/-- Witness for C6: one concrete run per init-failure mode (SPI open,
GPIO-chip open, DC line request, RST line request) exits 1 — the SPI case
with its full diagnostics and empty close list — and a run with all
acquisitions succeeding exits 0. -/
theorem c6_exit_codes_witness :
    main_run ⟨-1, -1, false, 0, false, 0⟩
      = (1, [], ["open spi", "Hardware init failed"]) ∧
    (main_run ⟨3, -1, false, 0, false, 0⟩).1 = 1 ∧
    (main_run ⟨3, 4, false, 0, false, 0⟩).1 = 1 ∧
    (main_run ⟨3, 4, true, 5, false, 0⟩).1 = 1 ∧
    (main_run ⟨3, 4, true, 5, true, 6⟩).1 = 0 :=
  ⟨(c6_exit_codes ⟨-1, -1, false, 0, false, 0⟩).2.1 (by decide),
   (c6_exit_codes ⟨3, -1, false, 0, false, 0⟩).2.2.1 (by decide) (by decide),
   (c6_exit_codes ⟨3, 4, false, 0, false, 0⟩).2.2.2.1 (by decide) (by decide)
     rfl,
   (c6_exit_codes ⟨3, 4, true, 5, false, 0⟩).2.2.2.2.1 (by decide) (by decide)
     rfl rfl,
   (c6_exit_codes ⟨3, 4, true, 5, true, 6⟩).2.2.2.2.2 (by decide) (by decide)
     rfl rfl⟩

/-- C8 counterexample: cleanup is not idempotent in the claimed sense.
After a complete cleanup of a fully-acquired state (dc=5, rst=6, gpio=4,
spi=3), a second invocation closes the same four descriptors again — not
nothing — because `hw_cleanup` never resets the stored descriptors. -/
theorem c8_counterexample :
    (hw_cleanup (hw_cleanup ⟨3, 4, 5, 6⟩).1).2 = [5, 6, 4, 3] ∧
    (hw_cleanup (hw_cleanup ⟨3, 4, 5, 6⟩).1).2 ≠ [] := by
  decide

/-- C8 amended: one `hw_cleanup` invocation closes exactly the handles
acquired by `hw_init`, each once, in order DC line, RST line, GPIO chip,
SPI device, tolerating every partial-acquisition state (never-acquired
handles keep their sentinel values 0 / -1 and fail the close guards); but
the function does not clear the stored descriptors, so a second
invocation repeats exactly the same close calls instead of closing
nothing. -/
theorem c8_cleanup_closes (env : HwEnv) :
    (env.spiRet < 0 → (hw_cleanup (hw_init env).1).2 = []) ∧
    (0 ≤ env.spiRet → env.gpioRet < 0 →
      (hw_cleanup (hw_init env).1).2 = [env.spiRet]) ∧
    (0 ≤ env.spiRet → 0 ≤ env.gpioRet → env.dcOk = false →
      (hw_cleanup (hw_init env).1).2 = [env.gpioRet, env.spiRet]) ∧
    (0 ≤ env.spiRet → 0 ≤ env.gpioRet → env.dcOk = true → 0 < env.dcFd →
      env.rstOk = false →
      (hw_cleanup (hw_init env).1).2
        = [env.dcFd, env.gpioRet, env.spiRet]) ∧
    (0 ≤ env.spiRet → 0 ≤ env.gpioRet → env.dcOk = true → 0 < env.dcFd →
      env.rstOk = true → 0 < env.rstFd →
      (hw_cleanup (hw_init env).1).2
        = [env.dcFd, env.rstFd, env.gpioRet, env.spiRet]) ∧
    (∀ s : HwState, (hw_cleanup s).1 = s ∧
      (hw_cleanup (hw_cleanup s).1).2 = (hw_cleanup s).2) := by
  refine ⟨?_, ?_, ?_, ?_, ?_, fun s => ⟨rfl, rfl⟩⟩
  · intro h
    have hn : ¬ 0 ≤ env.spiRet := by omega
    simp [hw_init, hw_cleanup, init_state, h, hn]
  · intro h1 h2
    have h1n : ¬ env.spiRet < 0 := by omega
    have h2n : ¬ 0 ≤ env.gpioRet := by omega
    simp [hw_init, hw_cleanup, init_state, h1n, h2, h2n, h1]
  · intro h1 h2 h3
    have h1n : ¬ env.spiRet < 0 := by omega
    have h2n : ¬ env.gpioRet < 0 := by omega
    simp [hw_init, hw_cleanup, init_state, h1n, h2n, h3, h1, h2]
  · intro h1 h2 h3 h4 h5
    have h1n : ¬ env.spiRet < 0 := by omega
    have h2n : ¬ env.gpioRet < 0 := by omega
    simp [hw_init, hw_cleanup, init_state, h1n, h2n, h3, h5, h4, h1, h2]
  · intro h1 h2 h3 h4 h5 h6
    have h1n : ¬ env.spiRet < 0 := by omega
    have h2n : ¬ env.gpioRet < 0 := by omega
    simp [hw_init, hw_cleanup, init_state, h1n, h2n, h3, h5, h4, h6, h1, h2]

/-- Witness for C8 (amended): full-acquisition close list and repeated
second invocation at a concrete state. -/
theorem c8_cleanup_closes_witness :
    (hw_cleanup (hw_init ⟨3, 4, true, 5, true, 6⟩).1).2 = [5, 6, 4, 3] ∧
    (hw_cleanup (hw_cleanup ⟨7, 8, 9, 10⟩).1).2 = (hw_cleanup ⟨7, 8, 9, 10⟩).2 :=
  ⟨(c8_cleanup_closes ⟨3, 4, true, 5, true, 6⟩).2.2.2.2.1 (by decide)
      (by decide) rfl (by decide) rfl (by decide),
   ((c8_cleanup_closes ⟨3, 4, true, 5, true, 6⟩).2.2.2.2.2 ⟨7, 8, 9, 10⟩).2⟩

/-- The `while (running)` loop of `main()`: `obs i` is the value of the
`running` flag read at the top of iteration i (the only place the loop
reads it), and the result counts the full ticks (compose+flush of
`draw_scanner`, position update, 30 ms sleep) performed from iteration i
on.  The C loop is unbounded; `fuel` is an observation horizon, large
enough for any run in which the flag eventually clears. -/
def loop_ticks (obs : ℕ → Bool) : ℕ → ℕ → ℕ
  | 0, _ => 0
  | fuel + 1, i => if obs i then loop_ticks obs fuel (i + 1) + 1 else 0

lemma loop_ticks_le (obs : ℕ → Bool) (a : ℕ)
    (hsig : ∀ n, a < n → obs n = false) :
    ∀ fuel i, loop_ticks obs fuel i ≤ a + 1 - i := by
  intro fuel
  induction fuel with
  | zero => intro i; rw [loop_ticks]; omega
  | succ fuel ih =>
    intro i
    rw [loop_ticks]
    by_cases hi : obs i
    · have hia : i ≤ a := by
        by_contra hc
        rw [hsig i (by omega)] at hi
        exact Bool.false_ne_true hi
      rw [if_pos hi]
      have := ih (i + 1)
      omega
    · rw [if_neg hi]
      omega

lemma loop_ticks_exact (obs : ℕ → Bool) (a : ℕ)
    (hsig : ∀ n, a < n → obs n = false)
    (hrun : ∀ n, n ≤ a → obs n = true) :
    ∀ fuel i, i ≤ a + 1 → a + 1 ≤ fuel + i →
      loop_ticks obs fuel i = a + 1 - i := by
  intro fuel
  induction fuel with
  | zero =>
    intro i hi1 hi2
    rw [loop_ticks]
    omega
  | succ fuel ih =>
    intro i hi1 hi2
    rw [loop_ticks]
    by_cases hia : i ≤ a
    · rw [if_pos (hrun i hia), ih (i + 1) (by omega) (by omega)]
      omega
    · rw [if_neg (by rw [hsig i (by omega)]; exact Bool.false_ne_true)]
      omega

/-- C9: if the running flag is false at every top-of-loop check after
check a — i.e. the signal handler cleared it at some point during
iteration a (compose, flush, position update or sleep), after check a had
already read true — then the loop performs at most a+1 ticks in total,
i.e. at most one further full tick (tick a, the one in progress or about
to start) after the flag clears; and when the flag was true up to check a
the loop performs exactly a+1 ticks, exiting at check a+1, the first
check after the signal.  The flag is consulted only at the top of each
iteration, which is how `loop_ticks` reads `obs`. -/
theorem c9_shutdown_latency (obs : ℕ → Bool) (a fuel : ℕ)
    (hsig : ∀ n, a < n → obs n = false) :
    loop_ticks obs fuel 0 ≤ a + 1 ∧
    ((∀ n, n ≤ a → obs n = true) → a + 1 ≤ fuel →
      loop_ticks obs fuel 0 = a + 1) := by
  constructor
  · have := loop_ticks_le obs a hsig fuel 0
    omega
  · intro hrun hfuel
    have := loop_ticks_exact obs a hsig hrun fuel 0 (by omega) (by omega)
    omega

/-- Witness for C9: the flag clears during iteration 2; the loop performs
exactly 3 ticks and at most one after the signal. -/
theorem c9_shutdown_latency_witness :
    loop_ticks (fun n => decide (n ≤ 2)) 10 0 ≤ 3 ∧
    loop_ticks (fun n => decide (n ≤ 2)) 10 0 = 3 := by
  have h := c9_shutdown_latency (fun n => decide (n ≤ 2)) 2 10
    (by intro n hn; simp; omega)
  exact ⟨h.1, h.2 (by intro n hn; simp [hn]) (by omega)⟩

/-- The guard of the gradient branch in `draw_scanner`: the division
`dist * 31 / scanner_width` is evaluated only when `dist < scanner_width`
holds for `dist = abs(x - center)`. -/
def division_reached (w : ℕ) (pos x : ℤ) : Prop := (x - pos).natAbs < w

/-- The frame composed by tick n of `main()`'s loop: `main` always calls
`draw_scanner(pos, scanner_width)` with its local `scanner_width = 20`. -/
def main_frame (bg : ℕ → ℕ) (n : ℕ) : ℕ → ℕ :=
  draw_scanner bg (anim_state n).1 scanner_width

/-- C10: the gradient division in `draw_scanner` is evaluated only under
the guard `dist < scanner_width` (outside it the band pixel is simply
black), and since `dist = |x - center| ≥ 0`, any reached division has a
strictly positive divisor; every call the program makes passes
`scanner_width = 20 > 0`, so in particular no division by zero is
reachable in any `main_frame`. -/
theorem c10_division_guard (w : ℕ) (pos x : ℤ) :
    (division_reached w pos x → 0 < w) ∧
    (¬ division_reached w pos x → scanner_color w pos x = COL_BLACK) ∧
    scanner_width = 20 ∧ 0 < scanner_width ∧
    (∀ (bg : ℕ → ℕ) (n : ℕ),
      main_frame bg n = draw_scanner bg (anim_state n).1 20) := by
  refine ⟨?_, ?_, rfl, by decide, fun bg n => rfl⟩
  · intro h
    unfold division_reached at h
    omega
  · intro h
    unfold division_reached at h
    unfold scanner_color
    rw [if_neg h]

/-- Witness for C10: at `center = 64`, `x = 64`, `w = scanner_width` the
division branch is reached and the divisor is positive; at `x = 0` the
branch is not reached and the band pixel is black. -/
theorem c10_division_guard_witness :
    0 < scanner_width ∧ scanner_color scanner_width 64 0 = COL_BLACK :=
  ⟨(c10_division_guard scanner_width 64 64).1
      (by unfold division_reached; decide),
   (c10_division_guard scanner_width 64 0).2.1
      (by unfold division_reached; decide)⟩
